import Mathlib

/-!
# Verification of the memoripilot memory-bank core

Shallow embedding, in Lean 4, of the parts of the memoripilot repository that
the specification's testable properties talk about:

* `FileTemplates.ts` — the enumerated document templates;
* `MemoryManager.ts` — the cached document store (`readFile`, `writeFile`,
  `appendToFile`, `appendLine`, `updateActiveContext`, `initialise`);
* `modes/Modes.ts` and `modes/ModeManager.ts` — the mode table and
  `detectMode`;
* `modes/Modes.ts` (`FileWatcher`) — the per-path debounce logic;
* `utils/WorkspaceUtil.ts` (`ChatModeProvider`) — template version
  extraction/comparison and `ensureModeTemplate`.

File systems are modelled as association lists from path strings to contents;
all string processing is done on `List Char` so every definition evaluates
inside the kernel.  Asynchronous I/O errors are not modelled: every modelled
read/write succeeds, which is the error-free path of the TypeScript code.
-/

namespace Memoripilot

/-! ## Association-list maps (path → value)

The TypeScript code stores file content in a `Map`/the file system keyed by
path strings.  We model such maps as association lists with unique keys:
`updMap` removes any previous binding for the key. -/

/-- Look a key up in an association list (first matching entry). -/
def lookupS {α : Type} : List (String × α) → String → Option α
  | [], _ => none
  | (k, v) :: t, q => if q = k then some v else lookupS t q

/-- Update: bind `k` to `v`, dropping any previous binding of `k`. -/
def updMap {α : Type} (m : List (String × α)) (k : String) (v : α) :
    List (String × α) :=
  (k, v) :: m.filter (fun e => decide (e.1 ≠ k))

@[simp] theorem lookupS_updMap_self {α : Type} (m : List (String × α))
    (k : String) (v : α) : lookupS (updMap m k v) k = some v := by
  simp [updMap, lookupS]

theorem lookupS_filter_ne {α : Type} (m : List (String × α)) (k q : String)
    (h : q ≠ k) :
    lookupS (m.filter (fun e => decide (e.1 ≠ k))) q = lookupS m q := by
  induction m with
  | nil => rfl
  | cons e t ih =>
    obtain ⟨k', v'⟩ := e
    simp only [ne_eq, decide_not] at ih
    by_cases he : k' = k
    · subst he
      simp [List.filter_cons, lookupS, h, ih]
    · simp only [ne_eq, decide_not, List.filter_cons, he, decide_False,
        Bool.not_false, lookupS, ih]

theorem lookupS_updMap_ne {α : Type} (m : List (String × α)) (k q : String)
    (v : α) (h : q ≠ k) : lookupS (updMap m k v) q = lookupS m q := by
  simp only [updMap, lookupS, if_neg h]
  exact lookupS_filter_ne m k q h

/-! ## Character-level string utilities

The TypeScript code uses JavaScript string primitives (`split`, `trim`,
`includes`, `startsWith`, `toLowerCase`).  We model them on `List Char`. -/

/-- The whitespace characters relevant to the repository's documents
(JavaScript `trim` strips a larger Unicode class; the documents only
contain these). -/
def isWSChar (c : Char) : Bool :=
  c = ' ' ∨ c = '\t' ∨ c = '\n' ∨ c = '\r'

/-- JavaScript `String.prototype.trim` on a character list. -/
def trimChars (l : List Char) : List Char :=
  ((l.dropWhile isWSChar).reverse.dropWhile isWSChar).reverse

/-- JavaScript `str.split(sep)` for a single-character separator:
`""` splits to `[""]`, and separators at the ends produce empty pieces. -/
def splitOnChar (sep : Char) : List Char → List (List Char)
  | [] => [[]]
  | c :: t =>
    match splitOnChar sep t with
    | [] => [[c]]
    | h :: r => if c = sep then [] :: h :: r else (c :: h) :: r

/-- JavaScript `str.split(/\r?\n/)`: split on `\n`, also consuming one
carriage return immediately before it; a lone `\r` is not a separator. -/
def splitLinesJS : List Char → List (List Char)
  | [] => [[]]
  | '\r' :: '\n' :: t =>
    match splitLinesJS t with
    | [] => [[]]
    | r => [] :: r
  | '\n' :: t =>
    match splitLinesJS t with
    | [] => [[]]
    | r => [] :: r
  | c :: t =>
    match splitLinesJS t with
    | [] => [[c]]
    | h :: r => (c :: h) :: r

/-- JavaScript `lines.join('\n')`. -/
def joinNL : List (List Char) → List Char
  | [] => []
  | [l] => l
  | l :: ls => l ++ '\n' :: joinNL ls

/-- The suffix of `l` strictly after the first occurrence of `pat`
(`none` when `pat` does not occur).  `dropAfterFirst pat l = some r`
models a successful JavaScript `indexOf`-style search. -/
def dropAfterFirst (pat : List Char) : List Char → Option (List Char)
  | [] => if pat = [] then some [] else none
  | c :: t =>
    if pat.isPrefixOf (c :: t) then some ((c :: t).drop pat.length)
    else dropAfterFirst pat t

/-- JavaScript `str.includes(pat)`. -/
def occursIn (pat l : List Char) : Bool :=
  (dropAfterFirst pat l).isSome

/-- Numeric value of a digit string. -/
def digitsVal (l : List Char) : Nat :=
  l.foldl (fun a c => a * 10 + (c.toNat - 48)) 0

/-- JavaScript `Number(part) || 0` as used on the pieces of a version string:
a non-empty all-digit piece parses to its value, everything else
(`""` gives `0`, non-numeric gives `NaN`) collapses to `0`. -/
def partNum (l : List Char) : Nat :=
  if l ≠ [] ∧ l.all Char.isDigit then digitsVal l else 0

/-! ## Template version extraction and comparison

From `ChatModeProvider` in `src/utils/WorkspaceUtil.ts`:

* `extractTemplateVersion(template)` applies the regular expression
  `/---[\s\S]*?version:\s*["']?([\d\.]+)["']?[\s\S]*?---/` and returns the
  captured group, or `"0.0.0"` when there is no match;
* `isVersionNewer(newVersion, oldVersion)` splits both on `'.'`, maps
  `Number` over the pieces, pads the shorter list with `0`
  (`parts[i] || 0`, which also collapses `NaN` to `0`), and compares
  component-wise. -/

/-- Component-wise comparison loop of `isVersionNewer`: `true` iff the first
list is lexicographically greater, with missing components read as `0`.
When the first list is exhausted every remaining comparison is `0 > o`,
which never holds, so the loop returns `false`. -/
def cmpParts : List Nat → List Nat → Bool
  | [], _ => false
  | n :: ns, [] => if 0 < n then true else cmpParts ns []
  | n :: ns, o :: os =>
    if o < n then true else if n < o then false else cmpParts ns os

/-- `ChatModeProvider.isVersionNewer`: `true` iff `newVersion` is strictly
newer than `oldVersion` under dotted-integer comparison with zero padding. -/
def isVersionNewer (newVersion oldVersion : String) : Bool :=
  cmpParts ((splitOnChar '.' newVersion.toList).map partNum)
    ((splitOnChar '.' oldVersion.toList).map partNum)

/-- One attempt of the version regex at the earliest remaining `version:`
occurrence: skip to after `version:`, skip whitespace (`\s*`), one optional
quote (`["']?`), take the maximal run of digits and dots (`[\d.]+`), and
require a closing `---` later in the string; on failure retry from the next
`version:` occurrence (the regex engine's backtracking).  `fuel` strictly
exceeds the length of the scanned suffix, so it never runs out. -/
def scanVersionAux : Nat → List Char → Option (List Char)
  | 0, _ => none
  | fuel + 1, l =>
    match dropAfterFirst ("version:".toList) l with
    | none => none
    | some r1 =>
      let r2 := r1.dropWhile isWSChar
      let r3 := match r2 with
        | c :: t => if c = '"' ∨ c = '\'' then t else r2
        | [] => r2
      let ds := r3.takeWhile (fun c => c.isDigit || c = '.')
      if ds ≠ [] ∧ occursIn ("---".toList) (r3.drop ds.length) then some ds
      else scanVersionAux fuel r1

/-- `ChatModeProvider.extractTemplateVersion`: the version captured by
`/---[\s\S]*?version:\s*["']?([\d\.]+)["']?[\s\S]*?---/`, or `"0.0.0"`
when the regex does not match (marker absent or unparseable). -/
def extractTemplateVersion (template : String) : String :=
  match dropAfterFirst ("---".toList) template.toList with
  | none => "0.0.0"
  | some r =>
    match scanVersionAux (r.length + 1) r with
    | some ds => String.mk ds
    | none => "0.0.0"

/-! ## The enumerated document templates (`src/memory/FileTemplates.ts`) -/

/-- `FILE_TEMPLATES` (the required documents), in declaration order. -/
def FILE_TEMPLATES : List (String × String) :=
  [("memory-bank/productContext.md",
    "# Product Context\n\nDescribe the product.\n\n## Overview\n\nProvide a high-level overview of the project.\n\n## Core Features\n\n- Feature 1\n- Feature 2\n\n## Technical Stack\n\n- Tech 1\n- Tech 2"),
   ("memory-bank/progress.md",
    "# Progress\n\n## Done\n\n- [x] Initialize project\n\n## Doing\n\n- [ ] Current task\n\n## Next\n\n- [ ] Upcoming task"),
   ("memory-bank/decisionLog.md",
    "# Decision Log\n\n| Date | Decision | Rationale |\n|------|----------|-----------|\n"),
   ("memory-bank/activeContext.md",
    "# Active Context\n\n## Current Goals\n\n- Goal 1\n\n## Current Blockers\n\n- None yet")]

/-- `OPTIONAL_FILE_TEMPLATES`, in declaration order. -/
def OPTIONAL_FILE_TEMPLATES : List (String × String) :=
  [("memory-bank/projectBrief.md",
    "# Project Brief\n\n## Purpose\n\nDefine the main purpose of this project.\n\n## Target Users\n\nDescribe who will use this.\n"),
   ("memory-bank/architect.md",
    "# MemoriPilot: System Architect\n\n## Overview\nThis file contains the architectural decisions and design patterns for the MemoriPilot project.\n\n## Architectural Decisions\n\n1. **Decision 1**: Description of the decision and its rationale.\n2. **Decision 2**: Description of the decision and its rationale.\n3. **Decision 3**: Description of the decision and its rationale.\n\n"),
   ("memory-bank/systemPatterns.md",
    "# System Patterns\n\n## Architectural Patterns\n\n- Pattern 1: Description\n\n## Design Patterns\n\n- Pattern 1: Description\n\n## Common Idioms\n\n- Idiom 1: Description")]

/-- `ALL_FILE_TEMPLATES = { ...FILE_TEMPLATES, ...OPTIONAL_FILE_TEMPLATES }`
(no key occurs twice, so the spread is plain concatenation). -/
def ALL_FILE_TEMPLATES : List (String × String) :=
  FILE_TEMPLATES ++ OPTIONAL_FILE_TEMPLATES

/-- Template lookup `ALL_FILE_TEMPLATES[path]`. -/
def lookupTemplate (path : String) : Option String :=
  lookupS ALL_FILE_TEMPLATES path

/-- The six document files named by the specification (§6): active-focus,
product-overview, progress, decision-log, project-brief, system-patterns. -/
def sixDocumentPaths : List String :=
  ["memory-bank/activeContext.md",
   "memory-bank/productContext.md",
   "memory-bank/progress.md",
   "memory-bank/decisionLog.md",
   "memory-bank/projectBrief.md",
   "memory-bank/systemPatterns.md"]

/-! ## Modes (`src/memory/modes/Mode.ts`, `Modes.ts`, `ModeManager.ts`) -/

/-- The `Mode` interface. -/
structure Mode where
  id : String
  name : String
  description : String
  readFiles : List String
  writeFiles : List String
  promptPrefix : String
  triggers : List String

/-- The `MODES` record.  JavaScript objects iterate string keys in insertion
order, so we keep it as a key-ordered association list. -/
def MODES : List (String × Mode) :=
  [("architect",
    { id := "architect",
      name := "Architect",
      description := "Design system architecture and make technical decisions",
      readFiles := ["memory-bank/productContext.md",
                    "memory-bank/decisionLog.md",
                    "memory-bank/systemPatterns.md"],
      writeFiles := ["memory-bank/decisionLog.md",
                     "memory-bank/systemPatterns.md"],
      promptPrefix := "You are in **Architect Mode**. Focus on system design, architecture decisions, and high-level patterns.",
      triggers := ["architect", "design", "structure", "system", "pattern", "decision"] }),
   ("code",
    { id := "code",
      name := "Code",
      description := "Implement features and write code",
      readFiles := ["memory-bank/activeContext.md",
                    "memory-bank/progress.md",
                    "memory-bank/systemPatterns.md"],
      writeFiles := ["memory-bank/progress.md"],
      promptPrefix := "You are in **Code Mode**. Focus on implementation details, code generation, and unit testing.",
      triggers := ["code", "implement", "program", "write", "build", "feature"] }),
   ("ask",
    { id := "ask",
      name := "Ask",
      description := "Answer questions about the project",
      readFiles := ["memory-bank/productContext.md",
                    "memory-bank/systemPatterns.md",
                    "memory-bank/progress.md",
                    "memory-bank/decisionLog.md",
                    "memory-bank/projectBrief.md"],
      writeFiles := [],
      promptPrefix := "You are in **Ask Mode**. Focus on answering questions based on project memory.",
      triggers := ["ask", "explain", "what", "why", "how", "describe", "tell"] }),
   ("debug",
    { id := "debug",
      name := "Debug",
      description := "Help identify and fix issues",
      readFiles := ["memory-bank/activeContext.md",
                    "memory-bank/decisionLog.md",
                    "memory-bank/systemPatterns.md"],
      writeFiles := ["memory-bank/progress.md"],
      promptPrefix := "You are in **Debug Mode**. Focus on troubleshooting, identifying issues, and fixing bugs.",
      triggers := ["debug", "fix", "issue", "bug", "problem", "error", "fail"] })]

/-- `ModeManager.detectMode`: lower-case the input (the triggers are ASCII,
so per-character lowering matches JavaScript `toLowerCase`), then return the
key of the first mode, in declaration order, one of whose triggers occurs as
a substring; `none` when no trigger matches. -/
def detectMode (input : String) : Option String :=
  let normalizedInput := input.toList.map Char.toLower
  MODES.findSome? (fun entry =>
    if entry.2.triggers.any (fun trigger => occursIn trigger.toList normalizedInput)
    then some entry.1 else none)

/-! ## The document store (`src/memory/MemoryManager.ts`)

State: the on-disk files (`vscode.workspace.fs`) and the in-memory
`fileCache`, both keyed by workspace-relative path. -/

structure MMState where
  disk : List (String × String)
  cache : List (String × String)

/-- `MemoryManager.writeFile`: write to disk, then update the cache. -/
def writeFile (st : MMState) (path content : String) : MMState :=
  { disk := updMap st.disk path content,
    cache := updMap st.cache path content }

/-- `MemoryManager.readFile`: read from disk (refreshing the cache); when the
file is missing, recreate it from its template via `writeFile` and return the
template content, or return `""` for a path with no template.  No error is
ever surfaced to the caller. -/
def readFile (st : MMState) (path : String) : String × MMState :=
  match lookupS st.disk path with
  | some content => (content, { st with cache := updMap st.cache path content })
  | none =>
    match lookupTemplate path with
    | some template => (template, writeFile st path template)
    | none => ("", st)

/-- `MemoryManager.appendToFile`: read-modify-write, then update the cache
with the appended content. -/
def appendToFile (st : MMState) (path content : String) : MMState :=
  let r := readFile st path
  let newContent := r.1 ++ content
  { disk := updMap r.2.disk path newContent,
    cache := updMap r.2.cache path newContent }

/-- `MemoryManager.appendLine`: read, then write
`content + "\n" + line + "\n"` directly to disk — unlike `writeFile` and
`appendToFile`, the cache is not updated with the written content (it holds
whatever the internal `readFile` put there). -/
def appendLine (st : MMState) (path line : String) : MMState :=
  let r := readFile st path
  let content := r.1 ++ "\n" ++ line ++ "\n"
  { r.2 with disk := updMap r.2.disk path content }

/-- JavaScript `Array.prototype.findIndex` over the lines of a document,
with the predicate also seeing the index. -/
def findIdxJS (p : Nat → List Char → Bool) : List (List Char) → Nat → Option Nat
  | [], _ => none
  | l :: ls, i => if p i l then some i else findIdxJS p ls (i + 1)

/-- `l.startsWith('## ')`. -/
def startsHdr (l : List Char) : Bool :=
  match l with
  | '#' :: '#' :: ' ' :: _ => true
  | _ => false

/-- `MemoryManager.updateActiveContext`: replace the body of the
`## Current Goals` section of `memory-bank/activeContext.md` with one
`- `-item per non-blank line of `context`, keeping everything up to and
including the marker line and everything from the next `## ` header on.
A blank file falls back to the bundled template; a non-blank file without
the marker is an error (the state still carries the cache refresh performed
by the internal `readFile`; the disk is untouched). -/
def updateActiveContext (st : MMState) (context : String) :
    Except String Unit × MMState :=
  let path := "memory-bank/activeContext.md"
  let r := readFile st path
  let content :=
    if trimChars r.1.toList = [] then
      (lookupS FILE_TEMPLATES path).getD ""
    else r.1
  let lines := splitLinesJS content.toList
  match findIdxJS (fun _ l => decide (trimChars l = "## Current Goals".toList)) lines 0 with
  | none => (Except.error "Template missing Current Goals section", r.2)
  | some startIdx =>
    let endIdx := findIdxJS (fun i l => decide (startIdx < i) && startsHdr l) lines 0
    let newGoals :=
      (((splitLinesJS context.toList).map trimChars).filter
        (fun goal => decide (goal ≠ []))).map (fun goal => '-' :: ' ' :: goal)
    let before := lines.take (startIdx + 1)
    let after := match endIdx with
      | some e => lines.drop e
      | none => []
    let updated := String.mk (joinNL (before ++ [[]] ++ newGoals ++ [[]] ++ after))
    (Except.ok (), writeFile r.2 path updated)

/-- One step of `MemoryManager.initialise`'s creation loops: create the file
from its template only when it does not exist (the cache is not touched —
the loops write through `vscode.workspace.fs` directly). -/
def createIfAbsent (st : MMState) (entry : String × String) : MMState :=
  match lookupS st.disk entry.1 with
  | some _ => st
  | none => { st with disk := updMap st.disk entry.1 entry.2 }

/-- `MemoryManager.initialise` (error-free path, directory already present):
create every required then optional document that is absent, then, when a
root-level `projectBrief.md` exists, copy its content over
`memory-bank/projectBrief.md` unconditionally. -/
def initialise (st : MMState) : MMState :=
  let st1 := FILE_TEMPLATES.foldl createIfAbsent st
  let st2 := OPTIONAL_FILE_TEMPLATES.foldl createIfAbsent st1
  match lookupS st2.disk "projectBrief.md" with
  | some briefContent =>
    { st2 with disk := updMap st2.disk "memory-bank/projectBrief.md" briefContent }
  | none => st2

/-! ## The debounced file watcher (`FileWatcher` in `src/memory/modes/Modes.ts`)

`_pendingChanges` maps each path to its armed timer; we record the absolute
time at which the timer will fire (`now + _batchDelay`).  `processTimeline`
runs an event-loop over a time-ordered list of raw notifications: before a
notification is handled, every timer already due has fired. -/

/-- `_batchDelay = 2000` milliseconds. -/
def batchDelay : Nat := 2000

structure WState where
  pendingChanges : List (String × Nat)

/-- `FileWatcher._handleFileChange`: cancel any pending timer for the file
and arm a fresh one firing at `now + batchDelay`. -/
def handleFileChange (st : WState) (file : String) (now : Nat) : WState :=
  ⟨updMap st.pendingChanges file (now + batchDelay)⟩

/-- Run the event loop over time-ordered raw notifications `(time, path)`.
Returns the emitted `fileChanged` events as `(path, timestamp)` pairs: a
timer fires once its scheduled time is reached, and every timer still
pending after the last notification eventually fires. -/
def processTimeline : List (Nat × String) → WState → List (String × Nat)
  | [], st => st.pendingChanges
  | (t, p) :: rest, st =>
    let due := st.pendingChanges.filter (fun e => decide (e.2 ≤ t))
    let remaining : WState := ⟨st.pendingChanges.filter (fun e => decide (t < e.2))⟩
    due ++ processTimeline rest (handleFileChange remaining p t)

/-! ## The template synchronizer (`ChatModeProvider.ensureModeTemplate`)

Modelled on the error-free path: the chat-modes directory exists, and reads
and writes succeed.  The bundled template content is a parameter (the code
reads it from the extension's resources, falling back to
`DEFAULT_MODE_TEMPLATES`). -/

structure EnsureResult where
  updated : Bool
  backupCreated : Bool
  templatePath : String
  backupPath : Option String
  fromVersion : Option String
  toVersion : Option String

/-- `ChatModeProvider.ensureModeTemplate`.  With the workspace copy present
and `forceUpdate = false`, the bundled and workspace versions are extracted
and the file is overwritten (after copying the previous content to the
`.backup` sibling) exactly when the bundled version is strictly newer. -/
def ensureModeTemplate (fs : List (String × String)) (bundledTemplate : String)
    (chatmodesDir mode : String) (forceUpdate : Bool) :
    EnsureResult × List (String × String) :=
  let templatePath := chatmodesDir ++ "/" ++ mode ++ ".chatmode.md"
  let bundledVersion := extractTemplateVersion bundledTemplate
  match lookupS fs templatePath with
  | some workspaceTemplate =>
    let doUpdate := fun (fromVersion : Option String) =>
      let backupPath := templatePath ++ ".backup"
      let fs1 := updMap fs backupPath workspaceTemplate
      let fs2 := updMap fs1 templatePath bundledTemplate
      ({ updated := true,
         backupCreated := true,
         templatePath := templatePath,
         backupPath := some backupPath,
         fromVersion := fromVersion,
         toVersion := some bundledVersion }, fs2)
    if forceUpdate then doUpdate none
    else
      let fromVersion := extractTemplateVersion workspaceTemplate
      if isVersionNewer bundledVersion fromVersion then doUpdate (some fromVersion)
      else
        ({ updated := false,
           backupCreated := false,
           templatePath := templatePath,
           backupPath := none,
           fromVersion := none,
           toVersion := none }, fs)
  | none =>
    ({ updated := true,
       backupCreated := false,
       templatePath := templatePath,
       backupPath := none,
       fromVersion := none,
       toVersion := some bundledVersion }, updMap fs templatePath bundledTemplate)

/-! ## Claims -/

/-- Claim C5 (confirmed): `detectMode` lower-cases its input and returns the
id of the first mode in declaration order (architect, code, ask, debug) one
of whose trigger keywords occurs as a substring, and `none` when no trigger
matches: the three behaviors named by the specification hold, matching is
case-insensitive, first-declared wins when several modes' triggers occur
(`design` beats `fix`/`bug`), and in general the result is `none` exactly
when no mode's trigger occurs in the lower-cased input. -/
theorem C5_detect_mode :
    detectMode "I need to design the system structure" = some "architect" ∧
    detectMode "there is a bug in the login" = some "debug" ∧
    detectMode "" = none ∧
    detectMode "DESIGN review" = some "architect" ∧
    detectMode "design a fix for this bug" = some "architect" ∧
    (∀ input : String, detectMode input = none ↔
      ∀ entry ∈ MODES, ∀ trigger ∈ entry.2.triggers,
        occursIn trigger.toList (input.toList.map Char.toLower) = false) := by
  refine ⟨by decide, by decide, by decide, by decide, by decide, ?_⟩
  intro input
  simp only [detectMode, List.findSome?_eq_none_iff]
  constructor
  · intro h entry hmem trigger htrig
    have he := h entry hmem
    by_cases hany : entry.2.triggers.any
        (fun trigger => occursIn trigger.toList (input.toList.map Char.toLower)) = true
    · rw [if_pos hany] at he
      cases he
    · have hanyf : entry.2.triggers.any
          (fun trigger => occursIn trigger.toList (input.toList.map Char.toLower)) = false := by
        cases hx : entry.2.triggers.any
            (fun trigger => occursIn trigger.toList (input.toList.map Char.toLower)) with
        | false => rfl
        | true => exact absurd hx hany
      have hall := List.any_eq_false.mp hanyf trigger htrig
      cases hocc : occursIn trigger.toList (input.toList.map Char.toLower) with
      | false => rfl
      | true => exact absurd hocc hall
  · intro h entry hmem
    have hany : entry.2.triggers.any
        (fun trigger => occursIn trigger.toList (input.toList.map Char.toLower)) = false := by
      rw [List.any_eq_false]
      intro trigger htrig
      rw [h entry hmem trigger htrig]
      exact Bool.false_ne_true
    rw [if_neg]
    rw [hany]
    exact Bool.false_ne_true

/-- Witness for C5's general no-match clause at a concrete input with no
trigger occurrence. -/
theorem C5_detect_mode_witness :
    detectMode "zzz qqq" = none :=
  (C5_detect_mode.2.2.2.2.2 "zzz qqq").mpr (by decide)

/-- Claim C6 counterexample: the `ask` mode's write-path list is empty, so it
is not a *non-empty* subset of the enumerated document paths as the claim
states. -/
theorem C6_counterexample :
    (lookupS MODES "ask").map Mode.writeFiles = some [] := by
  decide

/-- Claim C6 (corrected): for every mode, the read-path list is a non-empty
subset of the six enumerated document paths and the write-path list is a
subset of them; every mode except `ask` also has a non-empty write-path
list, while `ask`'s write-path list is empty. -/
theorem C6_mode_paths :
    (MODES.all (fun entry =>
      decide (entry.2.readFiles ≠ []) &&
      entry.2.readFiles.all (fun p => sixDocumentPaths.contains p) &&
      entry.2.writeFiles.all (fun p => sixDocumentPaths.contains p)) = true) ∧
    (MODES.all (fun entry =>
      (entry.1 == "ask") || decide (entry.2.writeFiles ≠ [])) = true) ∧
    (lookupS MODES "ask").map Mode.writeFiles = some [] := by
  decide

/-- Claim C9 counterexample: the enumeration of persisted document paths has
seven entries, not six — `memory-bank/architect.md` is enumerated in
`ALL_FILE_TEMPLATES` but is not one of the six documents the claim lists. -/
theorem C9_counterexample :
    (ALL_FILE_TEMPLATES.map Prod.fst).length = 7 ∧
    "memory-bank/architect.md" ∈ ALL_FILE_TEMPLATES.map Prod.fst ∧
    "memory-bank/architect.md" ∉ sixDocumentPaths := by
  decide

/-- Claim C9 (corrected): the closed enumeration of persisted document paths
contains exactly seven files: the six the claim lists (active-focus,
product-overview, progress, decision-log, project-brief, system-patterns)
plus a seventh architect-notes document, `memory-bank/architect.md`. -/
theorem C9_enumerated_paths :
    ALL_FILE_TEMPLATES.map Prod.fst =
      ["memory-bank/productContext.md",
       "memory-bank/progress.md",
       "memory-bank/decisionLog.md",
       "memory-bank/activeContext.md",
       "memory-bank/projectBrief.md",
       "memory-bank/architect.md",
       "memory-bank/systemPatterns.md"] ∧
    sixDocumentPaths.all
      (fun p => (ALL_FILE_TEMPLATES.map Prod.fst).contains p) = true := by
  decide

/-- Claim C4 (confirmed): for every state and every enumerated document path
(one with a template), if the on-disk file is missing, `readFile` returns
exactly the template content, recreates the file on disk from the template,
and (being total) surfaces no error to the caller. -/
theorem C4_self_healing_read (st : MMState) (path template : String)
    (htmpl : lookupTemplate path = some template)
    (hmiss : lookupS st.disk path = none) :
    (readFile st path).1 = template ∧
    lookupS (readFile st path).2.disk path = some template ∧
    lookupS (readFile st path).2.cache path = some template := by
  simp only [readFile]
  rw [hmiss, htmpl]
  simp [writeFile, lookupS_updMap_self]

/-- Witness for C4 at a concrete input: deleting `memory-bank/progress.md`
and reading it yields the progress template and recreates the file. -/
theorem C4_self_healing_read_witness :
    (readFile ⟨[], []⟩ "memory-bank/progress.md").1 =
      "# Progress\n\n## Done\n\n- [x] Initialize project\n\n## Doing\n\n- [ ] Current task\n\n## Next\n\n- [ ] Upcoming task" ∧
    lookupS (readFile ⟨[], []⟩ "memory-bank/progress.md").2.disk
      "memory-bank/progress.md" =
      some "# Progress\n\n## Done\n\n- [x] Initialize project\n\n## Doing\n\n- [ ] Current task\n\n## Next\n\n- [ ] Upcoming task" ∧
    lookupS (readFile ⟨[], []⟩ "memory-bank/progress.md").2.cache
      "memory-bank/progress.md" =
      some "# Progress\n\n## Done\n\n- [x] Initialize project\n\n## Doing\n\n- [ ] Current task\n\n## Next\n\n- [ ] Upcoming task" :=
  C4_self_healing_read ⟨[], []⟩ "memory-bank/progress.md" _ (by decide) (by decide)

/-- Claim C10 counterexample: `appendLine` does *not* leave the cache entry
unchanged — its internal `readFile` refreshes the cache with the pre-append
on-disk content, so a stale cache entry (`"C"` while disk holds `"D"`)
changes to `"D"` during the call. -/
theorem C10_counterexample :
    lookupS
      (appendLine
        ⟨[("memory-bank/decisionLog.md", "D")], [("memory-bank/decisionLog.md", "C")]⟩
        "memory-bank/decisionLog.md" "| x | y |").cache "memory-bank/decisionLog.md" =
      some "D" ∧
    lookupS
      (⟨[("memory-bank/decisionLog.md", "D")], [("memory-bank/decisionLog.md", "C")]⟩ :
        MMState).cache "memory-bank/decisionLog.md" = some "C" ∧
    (some "D" : Option String) ≠ some "C" := by
  decide

/-- Claim C10 (corrected): after `appendLine(path, line)` the on-disk file
holds the previous content, a newline, the line, and a trailing newline, and
the cache entry for the path holds the *pre-append on-disk content* (the
internal read refreshes it; it is not set to the appended content); by
contrast `writeFile` and `appendToFile` set the cache entry to exactly the
content written to disk. -/
theorem C10_append_cache (st : MMState) (path line x c : String)
    (hdisk : lookupS st.disk path = some c) :
    lookupS (appendLine st path line).disk path = some (c ++ "\n" ++ line ++ "\n") ∧
    lookupS (appendLine st path line).cache path = some c ∧
    lookupS (writeFile st path x).disk path = some x ∧
    lookupS (writeFile st path x).cache path = some x ∧
    lookupS (appendToFile st path x).disk path = some (c ++ x) ∧
    lookupS (appendToFile st path x).cache path = some (c ++ x) := by
  simp only [appendLine, appendToFile, readFile, writeFile]
  rw [hdisk]
  simp [lookupS_updMap_self]

/-- Witness for C10 at a concrete input. -/
theorem C10_append_cache_witness :
    lookupS
      (appendLine ⟨[("memory-bank/decisionLog.md", "# Log")], []⟩
        "memory-bank/decisionLog.md" "| r |").disk "memory-bank/decisionLog.md" =
      some "# Log\n| r |\n" ∧
    lookupS
      (appendLine ⟨[("memory-bank/decisionLog.md", "# Log")], []⟩
        "memory-bank/decisionLog.md" "| r |").cache "memory-bank/decisionLog.md" =
      some "# Log" ∧
    lookupS
      (writeFile ⟨[("memory-bank/decisionLog.md", "# Log")], []⟩
        "memory-bank/decisionLog.md" "W").disk "memory-bank/decisionLog.md" = some "W" ∧
    lookupS
      (writeFile ⟨[("memory-bank/decisionLog.md", "# Log")], []⟩
        "memory-bank/decisionLog.md" "W").cache "memory-bank/decisionLog.md" = some "W" ∧
    lookupS
      (appendToFile ⟨[("memory-bank/decisionLog.md", "# Log")], []⟩
        "memory-bank/decisionLog.md" "W").disk "memory-bank/decisionLog.md" =
      some "# LogW" ∧
    lookupS
      (appendToFile ⟨[("memory-bank/decisionLog.md", "# Log")], []⟩
        "memory-bank/decisionLog.md" "W").cache "memory-bank/decisionLog.md" =
      some "# LogW" :=
  C10_append_cache ⟨[("memory-bank/decisionLog.md", "# Log")], []⟩
    "memory-bank/decisionLog.md" "| r |" "W" "# Log" (by decide)

/-! ### Claim C1: version ordering -/

/-- A syntactically valid dotted version string: every dot-separated piece is
a non-empty digit string.  (`splitOnChar` never returns `[]`, so there is at
least one piece.) -/
def ValidVersion (v : String) : Bool :=
  (splitOnChar '.' v.toList).all
    (fun part => decide (part ≠ []) && part.all Char.isDigit)

theorem cmpParts_eq_any_of_zeros (l : List Nat) :
    ∀ zs : List Nat, (∀ z ∈ zs, z = 0) →
      cmpParts l zs = l.any (fun n => decide (0 < n)) := by
  induction l with
  | nil => intro zs _; cases zs <;> simp [cmpParts]
  | cons n ns ih =>
    intro zs hzs
    cases zs with
    | nil =>
      by_cases hn : 0 < n
      · simp [cmpParts, hn]
      · simp only [cmpParts, if_neg hn, List.any_cons]
        rw [ih [] (by intro z hz; cases hz)]
        simp [Nat.not_lt.mp hn |> Nat.le_zero.mp]
    | cons z zt =>
      have hz : z = 0 := hzs z (List.mem_cons_self z zt)
      subst hz
      by_cases hn : 0 < n
      · simp [cmpParts, hn]
      · have hn0 : n = 0 := Nat.le_zero.mp (Nat.not_lt.mp hn)
        subst hn0
        simp only [cmpParts, Nat.lt_irrefl, if_neg (by omega : ¬(0:Nat) < 0)]
        rw [ih zt (fun z hz => hzs z (List.mem_cons_of_mem _ hz))]
        simp

theorem cmpParts_zeros_left (l : List Nat) :
    ∀ zs : List Nat, (∀ n ∈ l, n = 0) → cmpParts l zs = false := by
  induction l with
  | nil => intro zs _; cases zs <;> simp [cmpParts]
  | cons n ns ih =>
    intro zs hl
    have hn : n = 0 := hl n (List.mem_cons_self n ns)
    subst hn
    have hrest : ∀ n ∈ ns, n = 0 := fun n hn => hl n (List.mem_cons_of_mem _ hn)
    cases zs with
    | nil => simp [cmpParts, ih [] hrest]
    | cons o ot =>
      simp only [cmpParts, if_neg (by omega : ¬ o < 0)]
      by_cases ho : 0 < o
      · simp [ho]
      · simp [ho, ih ot hrest]

/-- Claim C1 counterexample: `"0.0.0"` is itself a valid version, and the
default `"0.0.0"` is *not* judged older than it (the two are judged equal),
so the default is not older than *every* valid version as the claim
states. -/
theorem C1_counterexample :
    ValidVersion "0.0.0" = true ∧
    isVersionNewer "0.0.0" "0.0.0" = false := by
  decide

/-- Claim C1 (corrected): `"1.2.0"` is judged newer than `"1.1.9"`; `"1.0"`
and `"1.0.0"` are judged equal (missing dotted components are padded with
zero); a template without the frontmatter marker, or with an unparseable
version, yields the default `"0.0.0"`; and `"0.0.0"` is judged older than
every valid version with a nonzero component, while it is judged equal to
(neither older nor newer than) all-zero valid versions. -/
theorem C1_version_ordering :
    isVersionNewer "1.2.0" "1.1.9" = true ∧
    (isVersionNewer "1.0" "1.0.0" = false ∧ isVersionNewer "1.0.0" "1.0" = false) ∧
    extractTemplateVersion "# A template without any version marker" = "0.0.0" ∧
    extractTemplateVersion "---\ndescription: x\nversion: beta\n---" = "0.0.0" ∧
    (∀ template : String,
      dropAfterFirst ("---".toList) template.toList = none →
      extractTemplateVersion template = "0.0.0") ∧
    (∀ v : String, ValidVersion v = true →
      ((splitOnChar '.' v.toList).map partNum).any (fun n => decide (0 < n)) = true →
      isVersionNewer v "0.0.0" = true) ∧
    (∀ v : String, ValidVersion v = true →
      (∀ part ∈ splitOnChar '.' v.toList, partNum part = 0) →
      isVersionNewer v "0.0.0" = false ∧ isVersionNewer "0.0.0" v = false) := by
  refine ⟨by decide, ⟨by decide, by decide⟩, by decide, by decide, ?_, ?_, ?_⟩
  · intro template hnone
    simp only [extractTemplateVersion]
    rw [hnone]
  · intro v _ hpos
    have h3 : ∀ z ∈ ((splitOnChar '.' ("0.0.0").toList).map partNum), z = 0 := by decide
    simp only [isVersionNewer]
    rw [cmpParts_eq_any_of_zeros _ _ h3]
    exact hpos
  · intro v _ hzero
    have hz : ∀ n ∈ (splitOnChar '.' v.toList).map partNum, n = 0 := by
      intro n hn
      obtain ⟨part, hpart, rfl⟩ := List.mem_map.mp hn
      exact hzero part hpart
    constructor
    · simp only [isVersionNewer]
      exact cmpParts_zeros_left _ _ hz
    · simp only [isVersionNewer]
      have h3 : ∀ z ∈ ((splitOnChar '.' ("0.0.0").toList).map partNum), z = 0 := by decide
      exact cmpParts_zeros_left _ _ h3

/-- Witness for C1 at concrete inputs: `"2.0"` is a valid version with a
nonzero component and is judged newer than the default, and `"0.0"` is an
all-zero valid version judged equal to the default. -/
theorem C1_version_ordering_witness :
    isVersionNewer "2.0" "0.0.0" = true ∧
    extractTemplateVersion "plain text" = "0.0.0" ∧
    (isVersionNewer "0.0" "0.0.0" = false ∧ isVersionNewer "0.0.0" "0.0" = false) :=
  ⟨(C1_version_ordering.2.2.2.2.2.1) "2.0" (by decide) (by decide),
   (C1_version_ordering.2.2.2.2.1) "plain text" (by decide),
   (C1_version_ordering.2.2.2.2.2.2) "0.0" (by decide) (by decide)⟩

/-! ### Claim C2: backup-before-overwrite template update -/

theorem append_backup_ne (s : String) : s ++ ".backup" ≠ s := by
  intro h
  have hlen := congrArg String.length h
  rw [String.length_append] at hlen
  have h7 : ".backup".length = 7 := rfl
  omega

/-- Claim C2 (confirmed): for every mode, when `ensureModeTemplate` runs with
`forceUpdate = false` and the workspace template file exists, it overwrites
that file exactly when the bundled template's embedded version is strictly
newer than the workspace copy's; when it updates, the `.backup` sibling holds
the pre-update workspace content immediately afterwards, and when it does
not, the file system is untouched. -/
theorem C2_ensure_template (fs : List (String × String))
    (bundledTemplate chatmodesDir mode workspaceTemplate : String)
    (hexists :
      lookupS fs (chatmodesDir ++ "/" ++ mode ++ ".chatmode.md") = some workspaceTemplate) :
    (ensureModeTemplate fs bundledTemplate chatmodesDir mode false).1.updated =
      isVersionNewer (extractTemplateVersion bundledTemplate)
        (extractTemplateVersion workspaceTemplate) ∧
    (isVersionNewer (extractTemplateVersion bundledTemplate)
        (extractTemplateVersion workspaceTemplate) = true →
      lookupS (ensureModeTemplate fs bundledTemplate chatmodesDir mode false).2
          (chatmodesDir ++ "/" ++ mode ++ ".chatmode.md") = some bundledTemplate ∧
      lookupS (ensureModeTemplate fs bundledTemplate chatmodesDir mode false).2
          (chatmodesDir ++ "/" ++ mode ++ ".chatmode.md" ++ ".backup") =
        some workspaceTemplate) ∧
    (isVersionNewer (extractTemplateVersion bundledTemplate)
        (extractTemplateVersion workspaceTemplate) = false →
      (ensureModeTemplate fs bundledTemplate chatmodesDir mode false).2 = fs) := by
  simp only [ensureModeTemplate]
  rw [hexists]
  cases hnew : isVersionNewer (extractTemplateVersion bundledTemplate)
      (extractTemplateVersion workspaceTemplate) with
  | false => simp [hnew]
  | true =>
    simp only [hnew, Bool.false_eq_true, if_false, eq_self_iff_true, if_true]
    refine ⟨trivial, fun _ => ⟨lookupS_updMap_self _ _ _, ?_⟩,
      fun hf => absurd hf (by simp)⟩
    rw [lookupS_updMap_ne _ _ _ _ (append_backup_ne _)]
    exact lookupS_updMap_self _ _ _

/-- Witness for C2 at a concrete input: bundled version `1.1.0` against a
workspace copy at `1.0.0` — the file is overwritten and the `.backup`
sibling holds the old content. -/
theorem C2_ensure_template_witness :
    (ensureModeTemplate
        [(".github/chatmodes/ask.chatmode.md", "---\nversion: \"1.0.0\"\n---\nold body")]
        "---\nversion: \"1.1.0\"\n---\nnew body" ".github/chatmodes" "ask" false).1.updated =
      isVersionNewer
        (extractTemplateVersion "---\nversion: \"1.1.0\"\n---\nnew body")
        (extractTemplateVersion "---\nversion: \"1.0.0\"\n---\nold body") ∧
    (isVersionNewer
        (extractTemplateVersion "---\nversion: \"1.1.0\"\n---\nnew body")
        (extractTemplateVersion "---\nversion: \"1.0.0\"\n---\nold body") = true →
      lookupS (ensureModeTemplate
          [(".github/chatmodes/ask.chatmode.md", "---\nversion: \"1.0.0\"\n---\nold body")]
          "---\nversion: \"1.1.0\"\n---\nnew body" ".github/chatmodes" "ask" false).2
          (".github/chatmodes" ++ "/" ++ "ask" ++ ".chatmode.md") =
        some "---\nversion: \"1.1.0\"\n---\nnew body" ∧
      lookupS (ensureModeTemplate
          [(".github/chatmodes/ask.chatmode.md", "---\nversion: \"1.0.0\"\n---\nold body")]
          "---\nversion: \"1.1.0\"\n---\nnew body" ".github/chatmodes" "ask" false).2
          (".github/chatmodes" ++ "/" ++ "ask" ++ ".chatmode.md" ++ ".backup") =
        some "---\nversion: \"1.0.0\"\n---\nold body") ∧
    (isVersionNewer
        (extractTemplateVersion "---\nversion: \"1.1.0\"\n---\nnew body")
        (extractTemplateVersion "---\nversion: \"1.0.0\"\n---\nold body") = false →
      (ensureModeTemplate
          [(".github/chatmodes/ask.chatmode.md", "---\nversion: \"1.0.0\"\n---\nold body")]
          "---\nversion: \"1.1.0\"\n---\nnew body" ".github/chatmodes" "ask" false).2 =
        [(".github/chatmodes/ask.chatmode.md", "---\nversion: \"1.0.0\"\n---\nold body")]) :=
  C2_ensure_template
    [(".github/chatmodes/ask.chatmode.md", "---\nversion: \"1.0.0\"\n---\nold body")]
    "---\nversion: \"1.1.0\"\n---\nnew body" ".github/chatmodes" "ask"
    "---\nversion: \"1.0.0\"\n---\nold body" (by decide)

/-! ### Claim C7: idempotent initialization -/

theorem foldl_createIfAbsent_preserves (l : List (String × String)) :
    ∀ (st : MMState) (p c : String), lookupS st.disk p = some c →
      lookupS (l.foldl createIfAbsent st).disk p = some c := by
  induction l with
  | nil => intro st p c h; exact h
  | cons e t ih =>
    intro st p c h
    simp only [List.foldl_cons]
    apply ih
    simp only [createIfAbsent]
    cases hl : lookupS st.disk e.1 with
    | some _ => exact h
    | none =>
      have hne : p ≠ e.1 := fun hpe => by rw [hpe, hl] at h; cases h
      simp only []
      rw [lookupS_updMap_ne _ _ _ _ hne]
      exact h

theorem foldl_createIfAbsent_none (l : List (String × String)) :
    ∀ (st : MMState) (p : String), (∀ e ∈ l, e.1 ≠ p) →
      lookupS st.disk p = none →
      lookupS (l.foldl createIfAbsent st).disk p = none := by
  induction l with
  | nil => intro st p _ h; exact h
  | cons e t ih =>
    intro st p hkeys h
    simp only [List.foldl_cons]
    apply ih _ _ (fun e he => hkeys e (List.mem_cons_of_mem _ he))
    simp only [createIfAbsent]
    cases hl : lookupS st.disk e.1 with
    | some _ => exact h
    | none =>
      have hne : p ≠ e.1 := fun hpe =>
        (hkeys e (List.mem_cons_self e t)) hpe.symm
      simp only []
      rw [lookupS_updMap_ne _ _ _ _ hne]
      exact h

theorem initialise_preserves (st : MMState)
    (hroot : lookupS st.disk "projectBrief.md" = none)
    (p c : String) (h : lookupS st.disk p = some c) :
    lookupS (initialise st).disk p = some c ∧
    lookupS (initialise st).disk "projectBrief.md" = none := by
  have hkeys : ∀ e ∈ FILE_TEMPLATES ++ OPTIONAL_FILE_TEMPLATES,
      e.1 ≠ "projectBrief.md" := by decide
  simp only [initialise]
  have hroot2 :
      lookupS ((OPTIONAL_FILE_TEMPLATES.foldl createIfAbsent
        (FILE_TEMPLATES.foldl createIfAbsent st)).disk) "projectBrief.md" = none := by
    apply foldl_createIfAbsent_none _ _ _
      (fun e he => hkeys e (List.mem_append_right _ he))
    exact foldl_createIfAbsent_none _ _ _
      (fun e he => hkeys e (List.mem_append_left _ he)) hroot
  rw [hroot2]
  refine ⟨?_, hroot2⟩
  exact foldl_createIfAbsent_preserves _ _ _ _
    (foldl_createIfAbsent_preserves _ _ _ _ h)

/-- Claim C7 counterexample: with a root-level `projectBrief.md` present,
`initialise` copies it over `memory-bank/projectBrief.md` on every call, so
calling it twice changes a document that already existed with non-template
content (`"MINE"`, which is not the project-brief template, becomes
`"ROOT"`). -/
theorem C7_counterexample :
    lookupS (⟨[("projectBrief.md", "ROOT"), ("memory-bank/projectBrief.md", "MINE")],
      []⟩ : MMState).disk "memory-bank/projectBrief.md" = some "MINE" ∧
    lookupTemplate "memory-bank/projectBrief.md" ≠ some "MINE" ∧
    lookupS (initialise (initialise
      ⟨[("projectBrief.md", "ROOT"), ("memory-bank/projectBrief.md", "MINE")],
        []⟩)).disk "memory-bank/projectBrief.md" = some "ROOT" ∧
    (some "ROOT" : Option String) ≠ some "MINE" := by
  refine ⟨by decide, by decide, ?_, by decide⟩
  decide

/-- Claim C7 (corrected): provided no root-level `projectBrief.md` file
exists, calling `initialise` twice in a row produces no content change to
any document whose file already existed (with any content, template or
not): the creation loops only write absent files, and the root-brief copy
step does not run. -/
theorem C7_initialise_idempotent (st : MMState)
    (hroot : lookupS st.disk "projectBrief.md" = none)
    (p c : String) (h : lookupS st.disk p = some c) :
    lookupS (initialise (initialise st)).disk p = some c := by
  obtain ⟨h1, hroot1⟩ := initialise_preserves st hroot p c h
  exact (initialise_preserves (initialise st) hroot1 p c h1).1

/-- Witness for C7 at a concrete input: a pre-existing active-focus document
with custom content is unchanged by two `initialise` calls. -/
theorem C7_initialise_idempotent_witness :
    lookupS (initialise (initialise
      ⟨[("memory-bank/activeContext.md", "# My custom goals")], []⟩)).disk
      "memory-bank/activeContext.md" = some "# My custom goals" :=
  C7_initialise_idempotent
    ⟨[("memory-bank/activeContext.md", "# My custom goals")], []⟩
    (by decide) "memory-bank/activeContext.md" "# My custom goals" (by decide)

/-! ### Claim C3: debounce coalescing -/

theorem processTimeline_step_single (t : Nat) (p : String) (d : Nat)
    (rest : List (Nat × String)) (h : t < d) :
    processTimeline ((t, p) :: rest) ⟨[(p, d)]⟩ =
      processTimeline rest ⟨[(p, t + batchDelay)]⟩ := by
  have h1 : ¬(d ≤ t) := by omega
  simp [processTimeline, handleFileChange, updMap, List.filter, h1, h]

/-- Claim C3 (confirmed): a burst of three raw notifications on a path, each
within 500 ms of the previous, with the 2000 ms debounce window, yields
exactly one `fileChanged` event for that path, timestamped exactly (hence at
least) 2000 ms after the last notification; each raw notification re-arms
the path's timer to `now + batchDelay`, cancelling the pending one; and a
notification for one path leaves every other path's pending timer
unchanged. -/
theorem C3_debounce (p : String) (t1 t2 t3 : Nat)
    (h12 : t1 ≤ t2) (h12b : t2 ≤ t1 + 500)
    (h23 : t2 ≤ t3) (h23b : t3 ≤ t2 + 500) :
    processTimeline [(t1, p), (t2, p), (t3, p)] ⟨[]⟩ = [(p, t3 + batchDelay)] ∧
    (∀ e ∈ processTimeline [(t1, p), (t2, p), (t3, p)] ⟨[]⟩, t3 + 2000 ≤ e.2) ∧
    (∀ (st : WState) (file : String) (now : Nat),
      lookupS (handleFileChange st file now).pendingChanges file =
        some (now + batchDelay)) ∧
    (∀ (st : WState) (file q : String) (now : Nat), q ≠ file →
      lookupS (handleFileChange st file now).pendingChanges q =
        lookupS st.pendingChanges q) := by
  have hb : batchDelay = 2000 := rfl
  have e1 : processTimeline [(t1, p), (t2, p), (t3, p)] ⟨[]⟩ =
      processTimeline [(t2, p), (t3, p)] ⟨[(p, t1 + batchDelay)]⟩ := by
    simp [processTimeline, handleFileChange, updMap, List.filter]
  have e2 : processTimeline [(t2, p), (t3, p)] ⟨[(p, t1 + batchDelay)]⟩ =
      processTimeline [(t3, p)] ⟨[(p, t2 + batchDelay)]⟩ :=
    processTimeline_step_single _ _ _ _ (by omega)
  have e3 : processTimeline [(t3, p)] ⟨[(p, t2 + batchDelay)]⟩ =
      processTimeline [] ⟨[(p, t3 + batchDelay)]⟩ :=
    processTimeline_step_single _ _ _ _ (by omega)
  have emain : processTimeline [(t1, p), (t2, p), (t3, p)] ⟨[]⟩ =
      [(p, t3 + batchDelay)] := by
    rw [e1, e2, e3]; rfl
  refine ⟨emain, ?_, ?_, ?_⟩
  · intro e he
    rw [emain] at he
    simp only [List.mem_singleton] at he
    subst he
    omega
  · intro st file now
    exact lookupS_updMap_self _ _ _
  · intro st file q now hq
    exact lookupS_updMap_ne _ _ _ _ hq

/-- Witness for C3 at concrete times 0 ms, 400 ms, 800 ms: one event at
2800 ms. -/
theorem C3_debounce_witness :
    processTimeline [(0, "memory-bank/progress.md"), (400, "memory-bank/progress.md"),
      (800, "memory-bank/progress.md")] ⟨[]⟩ = [("memory-bank/progress.md", 800 + batchDelay)] ∧
    (∀ e ∈ processTimeline [(0, "memory-bank/progress.md"),
        (400, "memory-bank/progress.md"), (800, "memory-bank/progress.md")] ⟨[]⟩,
      800 + 2000 ≤ e.2) ∧
    (∀ (st : WState) (file : String) (now : Nat),
      lookupS (handleFileChange st file now).pendingChanges file =
        some (now + batchDelay)) ∧
    (∀ (st : WState) (file q : String) (now : Nat), q ≠ file →
      lookupS (handleFileChange st file now).pendingChanges q =
        lookupS st.pendingChanges q) :=
  C3_debounce "memory-bank/progress.md" 0 400 800
    (by decide) (by decide) (by decide) (by decide)

/-! ### Claim C8: structural update of the Current Goals section -/

theorem findIdxJS_append (q : Nat → List Char → Bool) (P : List (List Char)) :
    ∀ (rest : List (List Char)) (i : Nat),
      (∀ k (hk : k < P.length), q (i + k) (P.get ⟨k, hk⟩) = false) →
      findIdxJS q (P ++ rest) i = findIdxJS q rest (i + P.length) := by
  induction P with
  | nil => intro rest i _; simp [findIdxJS]
  | cons l P ih =>
    intro rest i hfail
    have h0 : q i l = false := by
      have := hfail 0 (by simp)
      simpa using this
    simp only [List.cons_append, findIdxJS, h0, if_neg (by simp : ¬(false = true))]
    rw [List.append_eq]
    rw [ih rest (i + 1) (fun k hk => by
      have := hfail (k + 1) (by simpa using Nat.succ_lt_succ hk)
      simpa [Nat.add_assoc, Nat.add_comm 1 k] using this)]
    congr 1
    simp [List.length_cons]
    omega

theorem findIdxJS_cons_found (q : Nat → List Char → Bool) (l : List Char)
    (rest : List (List Char)) (i : Nat) (h : q i l = true) :
    findIdxJS q (l :: rest) i = some i := by
  simp [findIdxJS, h]

theorem findIdxJS_none (p : List Char → Bool) (ls : List (List Char)) :
    ∀ i : Nat, (∀ l ∈ ls, p l = false) →
      findIdxJS (fun _ l => p l) ls i = none := by
  induction ls with
  | nil => intro i _; rfl
  | cons l t ih =>
    intro i hall
    have h0 : p l = false := hall l (List.mem_cons_self l t)
    simp only [findIdxJS, h0, if_neg (by simp : ¬(false = true))]
    exact ih (i + 1) (fun l hl => hall l (List.mem_cons_of_mem _ hl))

/-- Claim C8 counterexample: on a *blank* active-focus document the marker is
absent, yet `updateActiveContext` does not raise an error — the code falls
back to the bundled template and writes a repaired document. -/
theorem C8_counterexample :
    occursIn ("## Current Goals".toList) ("".toList) = false ∧
    (updateActiveContext ⟨[("memory-bank/activeContext.md", "")], []⟩ "G").1 =
      Except.ok () ∧
    lookupS (updateActiveContext ⟨[("memory-bank/activeContext.md", "")], []⟩ "G").2.disk
      "memory-bank/activeContext.md" =
      some "# Active Context\n\n## Current Goals\n\n- G\n\n## Current Blockers\n\n- None yet" :=
  ⟨by decide, rfl, by decide⟩

/-- Claim C8 (corrected): `updateActiveContext` replaces only the
`## Current Goals` subsection: with the document's lines decomposed as
`B ++ (m :: (M ++ (hdr :: A)))` — `m` the first line trimming to
`## Current Goals`, `hdr` the first later `## `-header — the result keeps
`B ++ [m]` and `hdr :: A` unchanged and the section body becomes one `- `
list item per non-blank input line (surrounded by blank lines).  When the
document is non-blank and no line trims to the marker the operation raises
the error and leaves the disk untouched; a *blank* document, however, falls
back to the bundled template instead of erroring (see the
counterexample). -/
theorem C8_update_active_context :
    (∀ (st : MMState) (c0 context : String) (B : List (List Char)) (m : List Char)
        (M : List (List Char)) (hdr : List Char) (A : List (List Char)),
      lookupS st.disk "memory-bank/activeContext.md" = some c0 →
      trimChars c0.toList ≠ [] →
      splitLinesJS c0.toList = B ++ (m :: (M ++ (hdr :: A))) →
      (∀ l ∈ B, trimChars l ≠ "## Current Goals".toList) →
      trimChars m = "## Current Goals".toList →
      (∀ l ∈ M, startsHdr l = false) →
      startsHdr hdr = true →
      (updateActiveContext st context).1 = Except.ok () ∧
      lookupS (updateActiveContext st context).2.disk "memory-bank/activeContext.md" =
        some (String.mk (joinNL ((B ++ [m]) ++ [[]] ++
          (((splitLinesJS context.toList).map trimChars).filter
            (fun goal => decide (goal ≠ []))).map (fun goal => '-' :: ' ' :: goal) ++
          [[]] ++ hdr :: A)))) ∧
    (∀ (st : MMState) (c0 context : String),
      lookupS st.disk "memory-bank/activeContext.md" = some c0 →
      trimChars c0.toList ≠ [] →
      (∀ l ∈ splitLinesJS c0.toList, trimChars l ≠ "## Current Goals".toList) →
      (updateActiveContext st context).1 =
        Except.error "Template missing Current Goals section" ∧
      (updateActiveContext st context).2.disk = st.disk) := by
  constructor
  · intro st c0 context B m M hdr A hdisk hblank hsplit hB hm hM hhdr
    have hstart :
        findIdxJS (fun _ l => decide (trimChars l = "## Current Goals".toList))
          (B ++ (m :: (M ++ (hdr :: A)))) 0 = some B.length := by
      have h1 := findIdxJS_append
        (fun _ l => decide (trimChars l = "## Current Goals".toList)) B
        (m :: (M ++ (hdr :: A))) 0
        (fun k hk => decide_eq_false (hB _ (List.get_mem B k hk)))
      have h2 := findIdxJS_cons_found
        (fun _ l => decide (trimChars l = "## Current Goals".toList)) m
        (M ++ (hdr :: A)) (0 + B.length) (decide_eq_true hm)
      exact h1.trans (h2.trans (by rw [Nat.zero_add]))
    have hend :
        findIdxJS (fun i l => decide (B.length < i) && startsHdr l)
          (B ++ (m :: (M ++ (hdr :: A)))) 0 = some (B.length + 1 + M.length) := by
      have h1 := findIdxJS_append
        (fun i l => decide (B.length < i) && startsHdr l) (B ++ [m])
        (M ++ (hdr :: A)) 0 (fun k hk => by
        have hk' : k ≤ B.length := by
          simp only [List.length_append, List.length_singleton] at hk
          omega
        have hlt : decide (B.length < 0 + k) = false :=
          decide_eq_false (by omega)
        simp only [hlt, Bool.false_and])
      have h2 := findIdxJS_append
        (fun i l => decide (B.length < i) && startsHdr l) M
        (hdr :: A) (0 + (B ++ [m]).length) (fun k hk => by
        have hs : startsHdr (M.get ⟨k, hk⟩) = false := hM _ (List.get_mem M k hk)
        simp only [hs, Bool.and_false])
      have h3 := findIdxJS_cons_found
        (fun i l => decide (B.length < i) && startsHdr l) hdr A
        (0 + (B ++ [m]).length + M.length) (by
        have hp : decide (B.length < 0 + (B ++ [m]).length + M.length) = true :=
          decide_eq_true (by simp [List.length_append]; omega)
        simp only [hp, hhdr, Bool.and_self])
      have hre1 : B ++ (m :: (M ++ (hdr :: A))) = (B ++ [m]) ++ (M ++ (hdr :: A)) := by simp
      rw [hre1]
      refine h1.trans (h2.trans (h3.trans ?_))
      have hlen : 0 + (B ++ [m]).length + M.length = B.length + 1 + M.length := by
        simp [List.length_append]
      rw [hlen]
    have htake : (B ++ (m :: (M ++ (hdr :: A)))).take (B.length + 1) = B ++ [m] := by
      have hre : B ++ (m :: (M ++ (hdr :: A))) = (B ++ [m]) ++ (M ++ (hdr :: A)) := by simp
      rw [hre, List.take_left' (by simp)]
    have hdrop :
        (B ++ (m :: (M ++ (hdr :: A)))).drop (B.length + 1 + M.length) = hdr :: A := by
      have hre : B ++ (m :: (M ++ (hdr :: A))) = ((B ++ [m]) ++ M) ++ (hdr :: A) := by simp
      rw [hre, List.drop_left' (by simp; omega)]
    simp only [updateActiveContext, readFile]
    rw [hdisk]
    simp only [if_neg hblank, hsplit, hstart, hend, htake, hdrop]
    refine ⟨trivial, ?_⟩
    exact lookupS_updMap_self _ _ _
  · intro st c0 context hdisk hblank hnomark
    have hnone :
        findIdxJS (fun _ l => decide (trimChars l = "## Current Goals".toList))
          (splitLinesJS c0.toList) 0 = none :=
      findIdxJS_none _ _ 0 (fun l hl => decide_eq_false (hnomark l hl))
    simp only [updateActiveContext, readFile]
    rw [hdisk]
    simp only [if_neg hblank, hnone]
    exact ⟨trivial, trivial⟩

/-- Witness for C8 at concrete inputs: a normal replacement inside a real
document, and the fatal no-marker case on a non-blank document. -/
theorem C8_update_active_context_witness :
    ((updateActiveContext ⟨[("memory-bank/activeContext.md",
        "# Active Context\n\n## Current Goals\n\n- Old\n\n## Current Blockers\n\n- None")], []⟩
        "Goal A\n\nGoal B").1 = Except.ok () ∧
      lookupS (updateActiveContext ⟨[("memory-bank/activeContext.md",
        "# Active Context\n\n## Current Goals\n\n- Old\n\n## Current Blockers\n\n- None")], []⟩
        "Goal A\n\nGoal B").2.disk "memory-bank/activeContext.md" =
        some "# Active Context\n\n## Current Goals\n\n- Goal A\n- Goal B\n\n## Current Blockers\n\n- None") ∧
    ((updateActiveContext ⟨[("memory-bank/activeContext.md", "# No goals here")], []⟩ "X").1 =
        Except.error "Template missing Current Goals section" ∧
      (updateActiveContext ⟨[("memory-bank/activeContext.md", "# No goals here")], []⟩ "X").2.disk =
        [("memory-bank/activeContext.md", "# No goals here")]) := by
  constructor
  · have h := C8_update_active_context.1
      ⟨[("memory-bank/activeContext.md",
        "# Active Context\n\n## Current Goals\n\n- Old\n\n## Current Blockers\n\n- None")], []⟩
      "# Active Context\n\n## Current Goals\n\n- Old\n\n## Current Blockers\n\n- None"
      "Goal A\n\nGoal B"
      [String.toList "# Active Context", []]
      (String.toList "## Current Goals")
      [[], String.toList "- Old", []]
      (String.toList "## Current Blockers")
      [[], String.toList "- None"]
      (by decide) (by decide) (by decide) (by decide) (by decide) (by decide) (by decide)
    exact ⟨h.1, h.2.trans (by decide)⟩
  · exact C8_update_active_context.2
      ⟨[("memory-bank/activeContext.md", "# No goals here")], []⟩
      "# No goals here" "X" (by decide) (by decide) (by decide)

end Memoripilot
